import Mathlib

/-!
Verification of the dreambody-server resolver layer.

The DynamoDB tables are shallowly embedded as Lean lists of records in
insertion order; a DynamoDB `PutCommand` is modelled as "remove any record
with the same key, then append", `GetCommand` as a key lookup, and a
`QueryCommand` on a partition key as a filter.  Timestamps (the ISO strings
produced by `new Date().toISOString()`) are opaque `String` parameters.
-/

namespace Dreambody

/-- A user profile record as stored in the `USER_PROFILES_TABLE`
(interface `UserProfile` of the resolver source). -/
structure UserProfile where
  userId : String
  name : Option String := none
  age : Option Int := none
  gender : Option String := none
  height : Option Int := none
  weight : Option Int := none
  createdAt : Option String := none
  updatedAt : Option String := none
deriving DecidableEq

/-- The GraphQL input type `UserProfileInput`: the key plus the optional
mutable attributes (no timestamps can be supplied by the caller). -/
structure UserProfileInput where
  userId : String
  name : Option String := none
  age : Option Int := none
  gender : Option String := none
  height : Option Int := none
  weight : Option Int := none
deriving DecidableEq

/-- The `UserProfiles` table: records in insertion order. -/
abbrev ProfilesTable := List UserProfile

/-- Errors surfaced by the store accessors.  `alreadyExists` stands for the
`ConditionalCheckFailedException` raised by the conditional put in
`createUserProfile`. -/
inductive DbError where
  | alreadyExists
deriving DecidableEq

/-- `getUserProfile`: a `GetCommand` on the profile key, `Item || null`. -/
def getUserProfile (table : ProfilesTable) (userId : String) :
    Option UserProfile :=
  table.find? (fun p => p.userId == userId)

/-- The item built by `createUserProfile`: the input spread plus
`createdAt`/`updatedAt` both set to the creation timestamp. -/
def profileOfInput (input : UserProfileInput) (timestamp : String) :
    UserProfile :=
  { userId := input.userId, name := input.name, age := input.age,
    gender := input.gender, height := input.height, weight := input.weight,
    createdAt := some timestamp, updatedAt := some timestamp }

/-- `createUserProfile`: a `PutCommand` guarded by the condition expression
`attribute_not_exists(userId)`; on a key collision the put fails and the
table is untouched. -/
def createUserProfile (input : UserProfileInput) (timestamp : String)
    (table : ProfilesTable) : Except DbError UserProfile × ProfilesTable :=
  if (table.find? (fun p => p.userId == input.userId)).isSome then
    (.error .alreadyExists, table)
  else
    let item := profileOfInput input timestamp
    (.ok item, table ++ [item])

/-- One attribute of the dynamic `SET` expression of `updateUserProfile`:
a field is written exactly when the input provides it (`value !== undefined`),
otherwise the stored value is kept. -/
def setIfProvided {α : Type} (new old : Option α) : Option α :=
  match new with
  | some v => some v
  | none => old

/-- The record produced by the `UpdateCommand` of `updateUserProfile`:
every provided non-key attribute is overwritten, `updatedAt` is always
overwritten with the fresh timestamp, and every other attribute
(`createdAt` included) keeps its stored value. -/
def applyProfileUpdate (p : UserProfile) (input : UserProfileInput)
    (timestamp : String) : UserProfile :=
  { userId := p.userId,
    name := setIfProvided input.name p.name,
    age := setIfProvided input.age p.age,
    gender := setIfProvided input.gender p.gender,
    height := setIfProvided input.height p.height,
    weight := setIfProvided input.weight p.weight,
    createdAt := p.createdAt,
    updatedAt := some timestamp }

/-- `updateUserProfile`: an `UpdateCommand` with `ReturnValues: ALL_NEW`.
Like DynamoDB `UpdateItem` it upserts: on a missing key a fresh record is
created holding only the provided attributes plus `updatedAt`. -/
def updateUserProfile (input : UserProfileInput) (timestamp : String)
    (table : ProfilesTable) : UserProfile × ProfilesTable :=
  match table.find? (fun p => p.userId == input.userId) with
  | some p =>
      let p2 := applyProfileUpdate p input timestamp
      (p2, table.map (fun q => if q.userId == input.userId then p2 else q))
  | none =>
      let p2 := applyProfileUpdate { userId := input.userId } input timestamp
      (p2, table ++ [p2])

section FindHelpers

variable {α : Type}

lemma find?_append_none {p : α → Bool} {l₁ l₂ : List α}
    (h : l₁.find? p = none) : (l₁ ++ l₂).find? p = l₂.find? p := by
  induction l₁ with
  | nil => rfl
  | cons a l ih =>
      have hpa : ¬ p a = true := by
        intro hpa
        rw [List.find?_cons_of_pos _ hpa] at h
        exact Option.noConfusion h
      have h' : l.find? p = none := by
        rw [List.find?_cons_of_neg _ hpa] at h
        exact h
      rw [List.cons_append, List.find?_cons_of_neg _ hpa]
      exact ih h'

lemma find?_singleton_pos {p : α → Bool} {a : α} (h : p a) :
    [a].find? p = some a := by
  simp [List.find?, h]

end FindHelpers

lemma find?_map_replace (l : ProfilesTable) (u : String) (p2 : UserProfile)
    (h2 : p2.userId = u)
    (h : (l.find? (fun q => q.userId == u)).isSome) :
    (l.map (fun q => if q.userId == u then p2 else q)).find?
      (fun q => q.userId == u) = some p2 := by
  induction l with
  | nil => simp at h
  | cons a l ih =>
      by_cases ha : a.userId = u
      · have hpa : ((if (a.userId == u) = true then p2 else a).userId == u)
            = true := by
          simp [ha, h2]
        simp only [List.map_cons]
        rw [List.find?_cons_of_pos (p := fun q : UserProfile => q.userId == u) _ hpa]
        simp [ha]
      · have ha' : ¬ ((a.userId == u) = true) := by simp [ha]
        have h' : (l.find? (fun q => q.userId == u)).isSome := by
          rw [List.find?_cons_of_neg (p := fun q : UserProfile => q.userId == u) _ ha'] at h
          exact h
        simp only [List.map_cons]
        rw [List.find?_cons_of_neg (p := fun q : UserProfile => q.userId == u)]
        · exact ih h'
        · simp [ha']

@[simp] lemma setIfProvided_none {α : Type} (old : Option α) :
    setIfProvided none old = old := rfl

@[simp] lemma setIfProvided_some {α : Type} (v : α) (old : Option α) :
    setIfProvided (some v) old = some v := rfl

/-- C1: for every valid profile input applied to a store holding no profile
with that key, `createUserProfile` succeeds, and `getUserProfile` then
returns a record equal to the input extended with `createdAt` and
`updatedAt` both set to the creation timestamp. -/
theorem c1_create_then_get (input : UserProfileInput) (ts : String)
    (table : ProfilesTable)
    (hfresh : getUserProfile table input.userId = none) :
    ∃ item table2,
      createUserProfile input ts table = (.ok item, table2) ∧
      getUserProfile table2 input.userId = some item ∧
      item.userId = input.userId ∧ item.name = input.name ∧
      item.age = input.age ∧ item.gender = input.gender ∧
      item.height = input.height ∧ item.weight = input.weight ∧
      item.createdAt = some ts ∧ item.updatedAt = some ts := by
  unfold getUserProfile at hfresh
  refine ⟨profileOfInput input ts, table ++ [profileOfInput input ts],
    ?_, ?_, rfl, rfl, rfl, rfl, rfl, rfl, rfl, rfl⟩
  · simp [createUserProfile, hfresh]
  · unfold getUserProfile
    rw [find?_append_none hfresh, find?_singleton_pos]
    simp [profileOfInput]

theorem c1_create_then_get_witness :
    ∃ item table2,
      createUserProfile { userId := "u1", name := some "Ann" } "T1" []
        = (.ok item, table2) ∧
      getUserProfile table2 "u1" = some item ∧
      item.userId = "u1" ∧ item.name = some "Ann" ∧
      item.age = none ∧ item.gender = none ∧
      item.height = none ∧ item.weight = none ∧
      item.createdAt = some "T1" ∧ item.updatedAt = some "T1" :=
  c1_create_then_get { userId := "u1", name := some "Ann" } "T1" [] rfl

/-- C2: creating a profile whose key already exists fails with the
AlreadyExists error and leaves the table unchanged; in particular a second
`createUserProfile` with the same `userId` fails. -/
theorem c2_create_already_exists :
    (∀ (input : UserProfileInput) (ts : String) (table : ProfilesTable)
        (p : UserProfile),
      getUserProfile table input.userId = some p →
      createUserProfile input ts table = (.error .alreadyExists, table)) ∧
    (∀ (input input2 : UserProfileInput) (ts₁ ts₂ : String)
        (table table2 : ProfilesTable) (item : UserProfile),
      input2.userId = input.userId →
      createUserProfile input ts₁ table = (.ok item, table2) →
      createUserProfile input2 ts₂ table2
        = (.error .alreadyExists, table2)) := by
  have key : ∀ (input : UserProfileInput) (ts : String)
      (table : ProfilesTable) (p : UserProfile),
      getUserProfile table input.userId = some p →
      createUserProfile input ts table = (.error .alreadyExists, table) := by
    intro input ts table p hex
    unfold getUserProfile at hex
    simp [createUserProfile, hex]
  refine ⟨key, ?_⟩
  intro input input2 ts₁ ts₂ table table2 item hsame hok
  have hnone : table.find? (fun p => p.userId == input.userId) = none := by
    cases hf : table.find? (fun p => p.userId == input.userId) with
    | none => rfl
    | some q =>
        simp [createUserProfile, hf] at hok
  have hitem : item = profileOfInput input ts₁ ∧
      table2 = table ++ [profileOfInput input ts₁] := by
    simp [createUserProfile, hnone] at hok
    exact ⟨hok.1.symm, hok.2.symm⟩
  obtain ⟨hi, ht⟩ := hitem
  apply key input2 ts₂ table2 (profileOfInput input ts₁)
  unfold getUserProfile
  rw [ht, hsame, find?_append_none hnone, find?_singleton_pos]
  simp [profileOfInput]

theorem c2_create_already_exists_witness :
    createUserProfile { userId := "u1" } "T2"
      [profileOfInput { userId := "u1" } "T1"]
      = (.error .alreadyExists, [profileOfInput { userId := "u1" } "T1"]) :=
  c2_create_already_exists.2 { userId := "u1" } { userId := "u1" }
    "T1" "T2" [] [profileOfInput { userId := "u1" } "T1"]
    (profileOfInput { userId := "u1" } "T1") rfl rfl

/-- C3: updating a stored profile with a partial input writes exactly the
provided non-key fields plus a fresh `updatedAt`; every absent field
(`createdAt` included) keeps its stored value, and the written record is
what a subsequent lookup returns. -/
theorem c3_update_partial_frame (input : UserProfileInput) (ts : String)
    (table : ProfilesTable) (p : UserProfile)
    (hex : getUserProfile table input.userId = some p) :
    ∃ p2 table2,
      updateUserProfile input ts table = (p2, table2) ∧
      p2.userId = p.userId ∧
      p2.createdAt = p.createdAt ∧
      p2.updatedAt = some ts ∧
      (input.name = none → p2.name = p.name) ∧
      (∀ v, input.name = some v → p2.name = some v) ∧
      (input.age = none → p2.age = p.age) ∧
      (∀ v, input.age = some v → p2.age = some v) ∧
      (input.gender = none → p2.gender = p.gender) ∧
      (∀ v, input.gender = some v → p2.gender = some v) ∧
      (input.height = none → p2.height = p.height) ∧
      (∀ v, input.height = some v → p2.height = some v) ∧
      (input.weight = none → p2.weight = p.weight) ∧
      (∀ v, input.weight = some v → p2.weight = some v) ∧
      getUserProfile table2 input.userId = some p2 := by
  unfold getUserProfile at hex
  have hpu : p.userId = input.userId := by
    have := List.find?_some hex
    simpa using this
  refine ⟨applyProfileUpdate p input ts,
    table.map (fun q => if q.userId == input.userId
      then applyProfileUpdate p input ts else q),
    ?_, rfl, rfl, rfl, ?_, ?_, ?_, ?_, ?_, ?_, ?_, ?_, ?_, ?_, ?_⟩
  · simp [updateUserProfile, hex]
  · intro h; simp [applyProfileUpdate, h]
  · intro v h; simp [applyProfileUpdate, h]
  · intro h; simp [applyProfileUpdate, h]
  · intro v h; simp [applyProfileUpdate, h]
  · intro h; simp [applyProfileUpdate, h]
  · intro v h; simp [applyProfileUpdate, h]
  · intro h; simp [applyProfileUpdate, h]
  · intro v h; simp [applyProfileUpdate, h]
  · intro h; simp [applyProfileUpdate, h]
  · intro v h; simp [applyProfileUpdate, h]
  · unfold getUserProfile
    apply find?_map_replace
    · simpa [applyProfileUpdate] using hpu
    · rw [hex]; rfl

def c3Input : UserProfileInput := { userId := "u1", age := some 21 }

def c3Stored : UserProfile :=
  { userId := "u1", name := some "Old", age := some 20,
    createdAt := some "T0", updatedAt := some "T0" }

theorem c3_update_partial_frame_witness :
    ∃ p2 table2,
      updateUserProfile c3Input "T1" [c3Stored] = (p2, table2) ∧
      p2.userId = c3Stored.userId ∧
      p2.createdAt = c3Stored.createdAt ∧
      p2.updatedAt = some "T1" ∧
      (c3Input.name = none → p2.name = c3Stored.name) ∧
      (∀ v, c3Input.name = some v → p2.name = some v) ∧
      (c3Input.age = none → p2.age = c3Stored.age) ∧
      (∀ v, c3Input.age = some v → p2.age = some v) ∧
      (c3Input.gender = none → p2.gender = c3Stored.gender) ∧
      (∀ v, c3Input.gender = some v → p2.gender = some v) ∧
      (c3Input.height = none → p2.height = c3Stored.height) ∧
      (∀ v, c3Input.height = some v → p2.height = some v) ∧
      (c3Input.weight = none → p2.weight = c3Stored.weight) ∧
      (∀ v, c3Input.weight = some v → p2.weight = some v) ∧
      getUserProfile table2 c3Input.userId = some p2 :=
  c3_update_partial_frame c3Input "T1" [c3Stored] c3Stored rfl

/-- A JSON value as produced by `JSON.parse`.  Number literals keep their
source lexeme: none of the verified code computes with them. -/
inductive Json where
  | null
  | bool (b : Bool)
  | num (lexeme : String)
  | str (s : String)
  | arr (elems : List Json)
  | obj (fields : List (String × Json))

/-- Whether a JSON number lexeme denotes zero: every mantissa character
(before any exponent marker) is a `0`, a sign or the decimal point. -/
def numLexemeIsZero (lexeme : String) : Bool :=
  (lexeme.toList.takeWhile (fun c => c ≠ 'e' ∧ c ≠ 'E')).all
    (fun c => c == '0' || c == '-' || c == '.')

/-- JavaScript truthiness of a JSON value, as tested by `if (x)` and
`x || d`: `null`, `false`, `""` and numeric zero are falsy. -/
def jsTruthy : Json → Bool
  | .null => false
  | .bool b => b
  | .num lexeme => !(numLexemeIsZero lexeme)
  | .str s => !s.isEmpty
  | .arr _ => true
  | .obj _ => true

/-- JavaScript member access `j.key` on a parsed JSON value: `undefined`
(here `none`) unless `j` is an object carrying the key. -/
def Json.getField : Json → String → Option Json
  | .obj fields, key => (fields.find? (fun f => f.1 == key)).map (fun f => f.2)
  | _, _ => none

/-- The JS expression `x || d` applied to a member access: the value when
present and truthy, the default otherwise. -/
def jsOrDefault (x : Option Json) (dflt : Json) : Json :=
  match x with
  | some v => if jsTruthy v then v else dflt
  | none => dflt

/-- A row of the `EXERCISE_PLANS_TABLE` / `DIET_PLANS_TABLE` as read by the
resolver: partition key `userId`, sort key `planId`, plus the remaining
attributes. -/
structure PlanRecord where
  userId : String
  planId : String
  createdAt : String := ""
  body : List (String × Json) := []

abbrev PlanTable := List PlanRecord

/-- A `PutCommand` on a plan table: unconditional put, replacing any row
with the same `(userId, planId)` key. -/
def putPlan (table : PlanTable) (item : PlanRecord) : PlanTable :=
  table.filter
    (fun r => !(r.userId == item.userId && r.planId == item.planId)) ++ [item]

/-- One step of selecting the partition row with the greatest sort key. -/
def latestStep (acc : Option PlanRecord) (r : PlanRecord) :
    Option PlanRecord :=
  match acc with
  | none => some r
  | some a => if a.planId < r.planId then some r else some a

/-- The `QueryCommand` with `ScanIndexForward: false, Limit: 1`: DynamoDB
returns the partition's rows in descending sort-key (`planId`) order, so the
single row produced is the one with the greatest `planId`. -/
def queryLatestPlan (table : PlanTable) (userId : String) :
    Option PlanRecord :=
  (table.filter (fun r => r.userId == userId)).foldl latestStep none

/-- `getExercisePlan`: point `GetCommand` when a (truthy, i.e. non-empty)
`planId` is supplied, otherwise the newest-first limit-1 query. -/
def getExercisePlan (table : PlanTable) (userId : String)
    (planId : Option String) : Option PlanRecord :=
  match planId with
  | some pid =>
      if pid.isEmpty then queryLatestPlan table userId
      else table.find? (fun r => r.userId == userId && r.planId == pid)
  | none => queryLatestPlan table userId

/-- `getDietPlan`: textually identical to `getExercisePlan` but reading the
diet-plans table. -/
def getDietPlan (table : PlanTable) (userId : String)
    (planId : Option String) : Option PlanRecord :=
  match planId with
  | some pid =>
      if pid.isEmpty then queryLatestPlan table userId
      else table.find? (fun r => r.userId == userId && r.planId == pid)
  | none => queryLatestPlan table userId

lemma latestStep_some_lt {a r : PlanRecord} (h : a.planId < r.planId) :
    latestStep (some a) r = some r := by
  simp [latestStep, h]

lemma latestStep_some_ge {a r : PlanRecord} (h : ¬ a.planId < r.planId) :
    latestStep (some a) r = some a := by
  simp [latestStep, h]

lemma foldl_latestStep_spec (l : List PlanRecord) :
    ∀ (acc : Option PlanRecord) (r : PlanRecord),
      l.foldl latestStep acc = some r →
      (acc = some r ∨ r ∈ l) ∧
      (∀ a, acc = some a → a.planId ≤ r.planId) ∧
      (∀ x ∈ l, x.planId ≤ r.planId) := by
  induction l with
  | nil =>
      intro acc r h
      simp only [List.foldl_nil] at h
      refine ⟨Or.inl h, ?_, by simp⟩
      intro a ha
      rw [h] at ha
      cases ha
      exact le_refl _
  | cons b l ih =>
      intro acc r h
      rw [List.foldl_cons] at h
      cases acc with
      | none =>
          have hstep : latestStep none b = some b := rfl
          rw [hstep] at h
          obtain ⟨hmem, hacc, hall⟩ := ih (some b) r h
          refine ⟨?_, ?_, ?_⟩
          · rcases hmem with hb | hl
            · cases hb
              exact Or.inr (List.mem_cons_self _ _)
            · exact Or.inr (List.mem_cons_of_mem _ hl)
          · intro a ha
            cases ha
          · intro x hx
            rcases List.mem_cons.mp hx with rfl | hx
            · exact hacc x rfl
            · exact hall x hx
      | some a =>
          by_cases hlt : a.planId < b.planId
          · rw [latestStep_some_lt hlt] at h
            obtain ⟨hmem, hacc, hall⟩ := ih (some b) r h
            refine ⟨?_, ?_, ?_⟩
            · rcases hmem with hb | hl
              · cases hb
                exact Or.inr (List.mem_cons_self _ _)
              · exact Or.inr (List.mem_cons_of_mem _ hl)
            · intro c hc
              cases hc
              exact le_trans (le_of_lt hlt) (hacc b rfl)
            · intro x hx
              rcases List.mem_cons.mp hx with rfl | hx
              · exact hacc x rfl
              · exact hall x hx
          · rw [latestStep_some_ge hlt] at h
            obtain ⟨hmem, hacc, hall⟩ := ih (some a) r h
            refine ⟨?_, ?_, ?_⟩
            · rcases hmem with hb | hl
              · exact Or.inl hb
              · exact Or.inr (List.mem_cons_of_mem _ hl)
            · exact hacc
            · intro x hx
              rcases List.mem_cons.mp hx with rfl | hx
              · exact le_trans (not_lt.mp hlt) (hacc a rfl)
              · exact hall x hx

lemma foldl_latestStep_isSome (l : List PlanRecord) :
    ∀ (a : PlanRecord), (l.foldl latestStep (some a)).isSome := by
  induction l with
  | nil => intro a; rfl
  | cons b l ih =>
      intro a
      rw [List.foldl_cons]
      by_cases hlt : a.planId < b.planId
      · rw [latestStep_some_lt hlt]
        exact ih b
      · rw [latestStep_some_ge hlt]
        exact ih a

lemma queryLatestPlan_spec (table : PlanTable) (u : String)
    (r : PlanRecord) (h : queryLatestPlan table u = some r) :
    r ∈ table ∧ r.userId = u ∧
    ∀ x ∈ table, x.userId = u → x.planId ≤ r.planId := by
  unfold queryLatestPlan at h
  obtain ⟨hmem, _, hall⟩ := foldl_latestStep_spec _ none r h
  rcases hmem with hc | hmem
  · cases hc
  · have hmem' := List.mem_filter.mp hmem
    refine ⟨hmem'.1, by simpa using hmem'.2, ?_⟩
    intro x hx hxu
    exact hall x (List.mem_filter.mpr ⟨hx, by simp [hxu]⟩)

lemma queryLatestPlan_isSome (table : PlanTable) (u : String)
    (x : PlanRecord) (hx : x ∈ table) (hxu : x.userId = u) :
    (queryLatestPlan table u).isSome := by
  unfold queryLatestPlan
  have hmem : x ∈ table.filter (fun r => r.userId == u) :=
    List.mem_filter.mpr ⟨hx, by simp [hxu]⟩
  cases hf : table.filter (fun r => r.userId == u) with
  | nil => rw [hf] at hmem; cases hmem
  | cons y ys =>
      rw [List.foldl_cons]
      exact foldl_latestStep_isSome ys y

/-- C4 counterexample: plan `"b"` is created first and plan `"a"` second
(later `createdAt`); the no-`planId` read returns the record with the
greatest sort key — the `"b"` record — which is not the most recently
created plan. -/
theorem c4_counterexample :
    putPlan (putPlan [] ⟨"u", "b", "T1", []⟩) ⟨"u", "a", "T2", []⟩
      = [⟨"u", "b", "T1", []⟩, ⟨"u", "a", "T2", []⟩] ∧
    getExercisePlan [⟨"u", "b", "T1", []⟩, ⟨"u", "a", "T2", []⟩] "u" none
      = some ⟨"u", "b", "T1", []⟩ ∧
    [(⟨"u", "b", "T1", []⟩ : PlanRecord), ⟨"u", "a", "T2", []⟩].getLast?
      = some ⟨"u", "a", "T2", []⟩ ∧
    (⟨"u", "b", "T1", []⟩ : PlanRecord).planId
      ≠ (⟨"u", "a", "T2", []⟩ : PlanRecord).planId := by
  have hba : ¬ ("b" : String) < "a" := by
    rw [String.lt_iff_toList_lt]; decide
  refine ⟨rfl, ?_, rfl, by decide⟩
  simp [getExercisePlan, queryLatestPlan, latestStep, hba]

/-- C4 (amended): without a `planId`, `getExercisePlan` / `getDietPlan`
return the stored plan of that user whose `planId` is greatest in the
sort-key order (present as soon as the user has any plan); in the scenario
where plans `"p1"` then `"p2"` are created the call returns `"p2"`; with a
(non-empty) `planId` the call is a point lookup of `(userId, planId)`. -/
theorem c4_get_plan_latest :
    (∀ (table : PlanTable) (u : String) (r : PlanRecord),
      getExercisePlan table u none = some r →
        r ∈ table ∧ r.userId = u ∧
        ∀ x ∈ table, x.userId = u → x.planId ≤ r.planId) ∧
    (∀ (table : PlanTable) (u : String) (r : PlanRecord),
      getDietPlan table u none = some r →
        r ∈ table ∧ r.userId = u ∧
        ∀ x ∈ table, x.userId = u → x.planId ≤ r.planId) ∧
    (∀ (table : PlanTable) (u : String) (x : PlanRecord),
      x ∈ table → x.userId = u →
        (getExercisePlan table u none).isSome ∧
        (getDietPlan table u none).isSome) ∧
    (getExercisePlan
        (putPlan (putPlan [] ⟨"u", "p1", "T1", []⟩) ⟨"u", "p2", "T2", []⟩)
        "u" none = some ⟨"u", "p2", "T2", []⟩) ∧
    (getDietPlan
        (putPlan (putPlan [] ⟨"u", "p1", "T1", []⟩) ⟨"u", "p2", "T2", []⟩)
        "u" none = some ⟨"u", "p2", "T2", []⟩) ∧
    (∀ (table : PlanTable) (u pid : String) (r : PlanRecord),
      pid ≠ "" → getExercisePlan table u (some pid) = some r →
        r ∈ table ∧ r.userId = u ∧ r.planId = pid) ∧
    (∀ (table : PlanTable) (u pid : String) (r : PlanRecord),
      pid ≠ "" → r ∈ table → r.userId = u → r.planId = pid →
        (getExercisePlan table u (some pid)).isSome) := by
  have hne : ∀ pid : String, pid ≠ "" → pid.isEmpty = false := by
    intro pid h
    cases hp : pid.isEmpty
    · rfl
    · exact absurd ((String.isEmpty_iff pid).mp hp) h
  have h12 : ("p1" : String) < "p2" := by
    rw [String.lt_iff_toList_lt]; decide
  refine ⟨?_, ?_, ?_, ?_, ?_, ?_, ?_⟩
  · intro table u r h
    exact queryLatestPlan_spec table u r h
  · intro table u r h
    exact queryLatestPlan_spec table u r h
  · intro table u x hx hxu
    exact ⟨queryLatestPlan_isSome table u x hx hxu,
      queryLatestPlan_isSome table u x hx hxu⟩
  · simp [getExercisePlan, queryLatestPlan, putPlan, latestStep, h12]
  · simp [getDietPlan, queryLatestPlan, putPlan, latestStep, h12]
  · intro table u pid r hpid h
    simp only [getExercisePlan] at h
    rw [hne pid hpid] at h
    simp only [Bool.false_eq_true, if_false] at h
    have hp := List.find?_some h
    simp only [Bool.and_eq_true, beq_iff_eq] at hp
    exact ⟨List.mem_of_find?_eq_some h, hp.1, hp.2⟩
  · intro table u pid r hpid hr hru hrp
    simp only [getExercisePlan]
    rw [hne pid hpid]
    simp only [Bool.false_eq_true, if_false]
    rw [List.find?_isSome]
    exact ⟨r, hr, by simp [hru, hrp]⟩

theorem c4_get_plan_latest_witness :
    ((⟨"u", "p2", "T2", []⟩ : PlanRecord)
        ∈ ([⟨"u", "p1", "T1", []⟩, ⟨"u", "p2", "T2", []⟩] : PlanTable)) ∧
    (⟨"u", "p2", "T2", []⟩ : PlanRecord).userId = "u" ∧
    (∀ x ∈ ([⟨"u", "p1", "T1", []⟩, ⟨"u", "p2", "T2", []⟩] : PlanTable),
      x.userId = "u" →
        x.planId ≤ (⟨"u", "p2", "T2", []⟩ : PlanRecord).planId) :=
  c4_get_plan_latest.1
    [⟨"u", "p1", "T1", []⟩, ⟨"u", "p2", "T2", []⟩] "u"
    ⟨"u", "p2", "T2", []⟩
    (by
      have h12 : ("p1" : String) < "p2" := by
        rw [String.lt_iff_toList_lt]; decide
      simp [getExercisePlan, queryLatestPlan, latestStep, h12])

/-- A quiz response record as stored in the `QUIZ_RESPONSES_TABLE`
(partition key `userId`, sort key `questionId`). -/
structure QuizResponse where
  userId : String
  questionId : String
  questionText : Option String := none
  responseData : Option String := none
  stepNumber : Option Int := none
  createdAt : Option String := none
  updatedAt : Option String := none
deriving DecidableEq

/-- The GraphQL input type `QuizResponseInput`. -/
structure QuizResponseInput where
  userId : String
  questionId : String
  questionText : Option String := none
  responseData : Option String := none
  stepNumber : Option Int := none
deriving DecidableEq

abbrev QuizTable := List QuizResponse

/-- The item built by `saveQuizResponse`: the input spread plus both
timestamps set to the save time. -/
def quizItemOfInput (input : QuizResponseInput) (timestamp : String) :
    QuizResponse :=
  { userId := input.userId, questionId := input.questionId,
    questionText := input.questionText, responseData := input.responseData,
    stepNumber := input.stepNumber,
    createdAt := some timestamp, updatedAt := some timestamp }

/-- Whether a stored record carries the given `(userId, questionId)` key. -/
def sameQuizKey (r : QuizResponse) (u q : String) : Bool :=
  r.userId == u && r.questionId == q

/-- `saveQuizResponse`: an unconditional `PutCommand`, i.e. an upsert that
replaces any record with the same key. -/
def saveQuizResponse (input : QuizResponseInput) (timestamp : String)
    (table : QuizTable) : QuizResponse × QuizTable :=
  let item := quizItemOfInput input timestamp
  (item,
    table.filter
      (fun r => !(sameQuizKey r input.userId input.questionId)) ++ [item])

/-- `getQuizResponses`: the `QueryCommand` on the partition key. -/
def getQuizResponses (table : QuizTable) (userId : String) :
    List QuizResponse :=
  table.filter (fun r => r.userId == userId)

/-- Key lookup in the quiz table (one DynamoDB row per key). -/
def findQuizItem (table : QuizTable) (u q : String) : Option QuizResponse :=
  table.find? (fun r => sameQuizKey r u q)

/-- A sequence of `saveQuizResponse` calls (input and timestamp each),
applied in order. -/
def applySaves : List (QuizResponseInput × String) → QuizTable → QuizTable
  | [], table => table
  | s :: rest, table => applySaves rest (saveQuizResponse s.1 s.2 table).2

/-- The last save of the sequence targeting the key `(u, q)`, if any. -/
def lastSave? : List (QuizResponseInput × String) → String → String →
    Option (QuizResponseInput × String)
  | [], _, _ => none
  | s :: rest, u, q =>
      match lastSave? rest u q with
      | some t => some t
      | none =>
          if s.1.userId = u ∧ s.1.questionId = q then some s else none

section MoreFindHelpers

variable {α : Type}

lemma find?_filter_incompat {p f : α → Bool} (l : List α)
    (h : ∀ x, f x = true → p x = false) : (l.filter f).find? p = none := by
  induction l with
  | nil => rfl
  | cons a l ih =>
      by_cases hf : f a
      · rw [List.filter_cons_of_pos hf,
          List.find?_cons_of_neg _ (by simp [h a hf])]
        exact ih
      · rw [List.filter_cons_of_neg hf]
        exact ih

lemma find?_filter_kept {p f : α → Bool} (l : List α)
    (h : ∀ x, p x = true → f x = true) :
    (l.filter f).find? p = l.find? p := by
  induction l with
  | nil => rfl
  | cons a l ih =>
      by_cases hp : p a
      · rw [List.filter_cons_of_pos (h a hp),
          List.find?_cons_of_pos _ hp, List.find?_cons_of_pos _ hp]
      · by_cases hf : f a
        · rw [List.filter_cons_of_pos hf,
            List.find?_cons_of_neg _ hp, List.find?_cons_of_neg _ hp]
          exact ih
        · rw [List.filter_cons_of_neg hf, List.find?_cons_of_neg _ hp]
          exact ih

lemma find?_append_some {p : α → Bool} {l₁ : List α} (l₂ : List α) {a : α}
    (h : l₁.find? p = some a) : (l₁ ++ l₂).find? p = some a := by
  induction l₁ with
  | nil => cases h
  | cons b l ih =>
      by_cases hp : p b
      · rw [List.find?_cons_of_pos _ hp] at h
        rw [List.cons_append, List.find?_cons_of_pos _ hp]
        exact h
      · rw [List.find?_cons_of_neg _ hp] at h
        rw [List.cons_append, List.find?_cons_of_neg _ hp]
        exact ih h

end MoreFindHelpers

/-- Effect of one upsert on a key lookup: the written key now maps to the
fresh item, every other key is untouched. -/
lemma findQuizItem_save (input : QuizResponseInput) (ts : String)
    (table : QuizTable) (u q : String) :
    findQuizItem (saveQuizResponse input ts table).2 u q =
      if input.userId = u ∧ input.questionId = q
      then some (quizItemOfInput input ts)
      else findQuizItem table u q := by
  by_cases hk : input.userId = u ∧ input.questionId = q
  · rw [if_pos hk]
    unfold findQuizItem saveQuizResponse
    have hnone : (table.filter
        (fun r => !(sameQuizKey r input.userId input.questionId))).find?
        (fun r => sameQuizKey r u q) = none := by
      apply find?_filter_incompat
      intro x hx
      rw [Bool.not_eq_true'] at hx
      rw [← hk.1, ← hk.2]
      exact hx
    rw [find?_append_none hnone, find?_singleton_pos]
    simp [sameQuizKey, quizItemOfInput, hk.1, hk.2]
  · rw [if_neg hk]
    unfold findQuizItem saveQuizResponse
    have hkept : ∀ x, sameQuizKey x u q = true →
        (!(sameQuizKey x input.userId input.questionId)) = true := by
      intro x hx
      simp only [sameQuizKey, Bool.and_eq_true, beq_iff_eq] at hx
      rw [Bool.not_eq_true', Bool.eq_false_iff]
      intro hc
      simp only [sameQuizKey, Bool.and_eq_true, beq_iff_eq] at hc
      exact hk ⟨hc.1.symm.trans hx.1, hc.2.symm.trans hx.2⟩
    cases hcase : table.find? (fun r => sameQuizKey r u q) with
    | some a =>
        have := find?_filter_kept table hkept
        rw [hcase] at this
        exact find?_append_some _ this
    | none =>
        have hfil := find?_filter_kept
          (p := fun r => sameQuizKey r u q) table hkept
        rw [hcase] at hfil
        rw [find?_append_none hfil]
        have hitem : sameQuizKey (quizItemOfInput input ts) u q = false := by
          rw [Bool.eq_false_iff]
          intro hc
          simp only [sameQuizKey, quizItemOfInput, Bool.and_eq_true,
            beq_iff_eq] at hc
          exact hk hc
        rw [List.find?_cons_of_neg _ (by simp [hitem]), List.find?_nil]

/-- Key lookup after a whole save sequence: the last save targeting the key
wins; keys never saved fall back to the starting table. -/
lemma findQuizItem_applySaves (saves : List (QuizResponseInput × String)) :
    ∀ (table : QuizTable) (u q : String),
      findQuizItem (applySaves saves table) u q =
        match lastSave? saves u q with
        | some s => some (quizItemOfInput s.1 s.2)
        | none => findQuizItem table u q := by
  induction saves with
  | nil => intro table u q; rfl
  | cons s rest ih =>
      intro table u q
      show findQuizItem (applySaves rest (saveQuizResponse s.1 s.2 table).2)
          u q = _
      rw [ih]
      cases hl : lastSave? rest u q with
      | some t => simp [lastSave?, hl]
      | none =>
          rw [findQuizItem_save]
          simp only [lastSave?, hl]
          by_cases hk : s.1.userId = u ∧ s.1.questionId = q
          · rw [if_pos hk, if_pos hk]
          · rw [if_neg hk, if_neg hk]

/-- Distinctness of `(userId, questionId)` keys, the DynamoDB table
invariant. -/
def keysDistinct (table : QuizTable) : Prop :=
  table.Pairwise
    (fun a b => ¬(a.userId = b.userId ∧ a.questionId = b.questionId))

lemma keysDistinct_save (input : QuizResponseInput) (ts : String)
    (table : QuizTable) (h : keysDistinct table) :
    keysDistinct (saveQuizResponse input ts table).2 := by
  unfold keysDistinct saveQuizResponse
  rw [List.pairwise_append]
  refine ⟨h.sublist (List.filter_sublist table), by simp, ?_⟩
  intro a ha b hb
  have hkeep := (List.mem_filter.mp ha).2
  rw [Bool.not_eq_true', Bool.eq_false_iff] at hkeep
  simp only [List.mem_singleton] at hb
  subst hb
  intro hc
  apply hkeep
  simp only [sameQuizKey, Bool.and_eq_true, beq_iff_eq]
  exact ⟨hc.1, hc.2⟩

lemma keysDistinct_applySaves (saves : List (QuizResponseInput × String)) :
    ∀ table, keysDistinct table → keysDistinct (applySaves saves table) := by
  induction saves with
  | nil => intro table h; exact h
  | cons s rest ih =>
      intro table h
      exact ih _ (keysDistinct_save s.1 s.2 table h)

/-- Every record of the table after a save sequence is either an original
record or the item of one of the saves. -/
lemma mem_applySaves (saves : List (QuizResponseInput × String)) :
    ∀ (table : QuizTable) (r : QuizResponse),
      r ∈ applySaves saves table →
      r ∈ table ∨ ∃ s ∈ saves, r = quizItemOfInput s.1 s.2 := by
  induction saves with
  | nil => intro table r hr; exact Or.inl hr
  | cons s rest ih =>
      intro table r hr
      rcases ih _ r hr with hmem | ⟨t, ht, rfl⟩
      · unfold saveQuizResponse at hmem
        rcases List.mem_append.mp hmem with hfil | hone
        · exact Or.inl (List.mem_filter.mp hfil).1
        · simp only [List.mem_singleton] at hone
          exact Or.inr ⟨s, List.mem_cons_self _ _, hone⟩
      · exact Or.inr ⟨t, List.mem_cons_of_mem _ ht, rfl⟩

/-- A save targeting `(u, q)` guarantees that `lastSave?` finds one. -/
lemma lastSave?_isSome (saves : List (QuizResponseInput × String))
    (u q : String) (s : QuizResponseInput × String) (hs : s ∈ saves)
    (hu : s.1.userId = u) (hq : s.1.questionId = q) :
    (lastSave? saves u q).isSome := by
  induction saves with
  | nil => cases hs
  | cons t rest ih =>
      rcases List.mem_cons.mp hs with rfl | hs'
      · show (match lastSave? rest u q with
          | some t' => some t'
          | none => if s.1.userId = u ∧ s.1.questionId = q
                    then some s else none).isSome
        cases lastSave? rest u q with
        | some t' => rfl
        | none => rw [if_pos ⟨hu, hq⟩]; rfl
      · have := ih hs'
        show (match lastSave? rest u q with
          | some t' => some t'
          | none => if t.1.userId = u ∧ t.1.questionId = q
                    then some t else none).isSome
        cases hl : lastSave? rest u q with
        | some t' => rfl
        | none => rw [hl] at this; cases this

/-- Whatever `lastSave?` returns comes from the sequence and targets the
requested key. -/
lemma lastSave?_mem (saves : List (QuizResponseInput × String))
    (u q : String) (t : QuizResponseInput × String)
    (h : lastSave? saves u q = some t) :
    t ∈ saves ∧ t.1.userId = u ∧ t.1.questionId = q := by
  induction saves with
  | nil => cases h
  | cons s rest ih =>
      have h' : (match lastSave? rest u q with
          | some t' => some t'
          | none => if s.1.userId = u ∧ s.1.questionId = q
                    then some s else none) = some t := h
      cases hl : lastSave? rest u q with
      | some t' =>
          rw [hl] at h'
          cases h'
          obtain ⟨hm, hu, hq⟩ := ih hl
          exact ⟨List.mem_cons_of_mem _ hm, hu, hq⟩
      | none =>
          rw [hl] at h'
          by_cases hk : s.1.userId = u ∧ s.1.questionId = q
          · rw [if_pos hk] at h'
            cases h'
            exact ⟨List.mem_cons_self _ _, hk.1, hk.2⟩
          · rw [if_neg hk] at h'
            cases h'

/-- C5: after any sequence of `saveQuizResponse` calls starting from an
empty table, `getQuizResponses(u)` holds at most one record per
`questionId`; the record stored under a key is exactly the item of the last
save targeting it (upsert overwrite); every returned record is the item of
some save for that user; and every save for that user is still represented
by a record with its `questionId`. -/
theorem c5_quiz_upsert (saves : List (QuizResponseInput × String))
    (u : String) :
    ((getQuizResponses (applySaves saves []) u).Pairwise
      (fun a b => a.questionId ≠ b.questionId)) ∧
    (∀ q, findQuizItem (applySaves saves []) u q =
      (lastSave? saves u q).map (fun s => quizItemOfInput s.1 s.2)) ∧
    (∀ r ∈ getQuizResponses (applySaves saves []) u,
      ∃ s ∈ saves, s.1.userId = u ∧ r = quizItemOfInput s.1 s.2) ∧
    (∀ s ∈ saves, s.1.userId = u →
      ∃ r ∈ getQuizResponses (applySaves saves []) u,
        r.questionId = s.1.questionId) := by
  have hdist : keysDistinct (applySaves saves []) :=
    keysDistinct_applySaves saves [] (List.Pairwise.nil)
  have hchar : ∀ q, findQuizItem (applySaves saves []) u q =
      (lastSave? saves u q).map (fun s => quizItemOfInput s.1 s.2) := by
    intro q
    rw [findQuizItem_applySaves]
    cases lastSave? saves u q with
    | some t => rfl
    | none => rfl
  refine ⟨?_, hchar, ?_, ?_⟩
  · have hsub : List.Sublist (getQuizResponses (applySaves saves []) u)
        (applySaves saves []) := List.filter_sublist _
    have hpw := hdist.sublist hsub
    refine List.Pairwise.imp_of_mem ?_ hpw
    intro a b ha hb hR hq
    have hau : a.userId = u := by
      simpa using (List.mem_filter.mp ha).2
    have hbu : b.userId = u := by
      simpa using (List.mem_filter.mp hb).2
    exact hR ⟨hau.trans hbu.symm, hq⟩
  · intro r hr
    have hru : r.userId = u := by
      simpa using (List.mem_filter.mp hr).2
    rcases mem_applySaves saves [] r (List.mem_filter.mp hr).1 with h0 | hs
    · cases h0
    · obtain ⟨s, hs, rfl⟩ := hs
      exact ⟨s, hs, hru, rfl⟩
  · intro s hs hsu
    have hsome := lastSave?_isSome saves u s.1.questionId s hs hsu rfl
    obtain ⟨t, ht⟩ := Option.isSome_iff_exists.mp hsome
    have hfind := hchar s.1.questionId
    rw [ht] at hfind
    simp only [Option.map_some'] at hfind
    have hmem : quizItemOfInput t.1 t.2 ∈ applySaves saves [] :=
      List.mem_of_find?_eq_some hfind
    obtain ⟨_, htu, htq⟩ := lastSave?_mem saves u s.1.questionId t ht
    refine ⟨quizItemOfInput t.1 t.2, ?_, ?_⟩
    · exact List.mem_filter.mpr ⟨hmem, by simp [quizItemOfInput, htu]⟩
    · simpa [quizItemOfInput] using htq

def c5In1 : QuizResponseInput :=
  { userId := "u1", questionId := "q1", responseData := some "first" }

def c5In2 : QuizResponseInput :=
  { userId := "u1", questionId := "q1", responseData := some "second" }

def c5Saves : List (QuizResponseInput × String) :=
  [(c5In1, "T1"), (c5In2, "T2")]

theorem c5_quiz_upsert_witness :
    ((getQuizResponses (applySaves c5Saves []) "u1").Pairwise
      (fun a b => a.questionId ≠ b.questionId)) ∧
    (∀ q, findQuizItem (applySaves c5Saves []) "u1" q =
      (lastSave? c5Saves "u1" q).map (fun s => quizItemOfInput s.1 s.2)) ∧
    (∀ r ∈ getQuizResponses (applySaves c5Saves []) "u1",
      ∃ s ∈ c5Saves, s.1.userId = "u1" ∧ r = quizItemOfInput s.1 s.2) ∧
    (∀ s ∈ c5Saves, s.1.userId = "u1" →
      ∃ r ∈ getQuizResponses (applySaves c5Saves []) "u1",
        r.questionId = s.1.questionId) :=
  c5_quiz_upsert c5Saves "u1"

/-! ### JSON extraction (plan-generation orchestrator)

`extractJsonFromResponse` delegates to `findValidJson`, which is not among
the repository sources; it is modelled below from the spec.  The parser is
fuel-based so that it evaluates inside the kernel; the fuel supplied by
`findValidJson` (input length + 1) dominates the recursion depth, since
every recursive call happens strictly after at least one character of the
input has been consumed. -/

/-- Drop leading JSON whitespace. -/
def skipWs : List Char → List Char
  | c :: cs =>
      if c = ' ' ∨ c = '\t' ∨ c = '\n' ∨ c = '\r' then skipWs cs
      else c :: cs
  | [] => []

/-- Translate a JSON escape character; `none` for an invalid escape. -/
def unescapeChar (c : Char) : Option Char :=
  if c = '"' then some '"'
  else if c = '\\' then some '\\'
  else if c = '/' then some '/'
  else if c = 'b' then some (Char.ofNat 8)
  else if c = 'f' then some (Char.ofNat 12)
  else if c = 'n' then some '\n'
  else if c = 'r' then some '\r'
  else if c = 't' then some '\t'
  else none

/-- Value of a hexadecimal digit. -/
def hexDigitVal (c : Char) : Option Nat :=
  if '0' ≤ c ∧ c ≤ '9' then some (c.toNat - '0'.toNat)
  else if 'a' ≤ c ∧ c ≤ 'f' then some (c.toNat - 'a'.toNat + 10)
  else if 'A' ≤ c ∧ c ≤ 'F' then some (c.toNat - 'A'.toNat + 10)
  else none

/-- Parse the body of a JSON string literal (the opening quote already
consumed), returning its characters and the rest of the input. -/
def parseStringBody : Nat → List Char → Option (List Char × List Char)
  | 0, _ => none
  | _ + 1, [] => none
  | fuel + 1, c :: rest =>
      if c = '"' then some ([], rest)
      else if c = '\\' then
        match rest with
        | 'u' :: h1 :: h2 :: h3 :: h4 :: rest2 =>
            match hexDigitVal h1, hexDigitVal h2,
                hexDigitVal h3, hexDigitVal h4 with
            | some a, some b, some c3, some d =>
                (parseStringBody fuel rest2).map
                  (fun p =>
                    (Char.ofNat (((a * 16 + b) * 16 + c3) * 16 + d) :: p.1,
                      p.2))
            | _, _, _, _ => none
        | e :: rest2 =>
            match unescapeChar e with
            | some c2 =>
                (parseStringBody fuel rest2).map (fun p => (c2 :: p.1, p.2))
            | none => none
        | [] => none
      else if c.toNat < 32 then none
      else (parseStringBody fuel rest).map (fun p => (c :: p.1, p.2))

/-- Parse an optional JSON fraction part, returning its characters. -/
def parseFrac (cs : List Char) : Option (List Char × List Char) :=
  match cs with
  | '.' :: r =>
      let ds := r.takeWhile Char.isDigit
      if ds.isEmpty then none
      else some ('.' :: ds, r.drop ds.length)
  | _ => some ([], cs)

/-- Parse an optional JSON exponent part, returning its characters. -/
def parseExp (cs : List Char) : Option (List Char × List Char) :=
  match cs with
  | c :: r =>
      if c = 'e' ∨ c = 'E' then
        match r with
        | s :: r1 =>
            if s = '+' ∨ s = '-' then
              let ds := r1.takeWhile Char.isDigit
              if ds.isEmpty then none
              else some (c :: s :: ds, r1.drop ds.length)
            else
              let ds := r.takeWhile Char.isDigit
              if ds.isEmpty then none
              else some (c :: ds, r.drop ds.length)
        | [] => none
      else some ([], cs)
  | [] => some ([], cs)

/-- Parse a JSON number starting at the given position, keeping its source
lexeme. -/
def parseNumberAt (cs : List Char) : Option (Json × List Char) :=
  let signed := match cs with
    | '-' :: r => (['-'], r)
    | _ => (([] : List Char), cs)
  let intDs := signed.2.takeWhile Char.isDigit
  if intDs.isEmpty then none
  else if 1 < intDs.length ∧ intDs.head? = some '0' then none
  else
    let cs2 := signed.2.drop intDs.length
    match parseFrac cs2 with
    | none => none
    | some (frac, cs3) =>
        match parseExp cs3 with
        | none => none
        | some (ex, cs4) =>
            some (.num (String.mk (signed.1 ++ intDs ++ frac ++ ex)), cs4)

mutual

/-- Parse one JSON value at the current position. -/
def parseValue : Nat → List Char → Option (Json × List Char)
  | 0, _ => none
  | fuel + 1, cs =>
      match skipWs cs with
      | [] => none
      | c :: rest =>
          if c = '{' then
            match skipWs rest with
            | '}' :: rest2 => some (.obj [], rest2)
            | _ =>
                (parseMembers fuel rest).map
                  (fun p => (.obj p.1, p.2))
          else if c = '[' then
            match skipWs rest with
            | ']' :: rest2 => some (.arr [], rest2)
            | _ =>
                (parseElements fuel rest).map
                  (fun p => (.arr p.1, p.2))
          else if c = '"' then
            (parseStringBody fuel rest).map
              (fun p => (.str (String.mk p.1), p.2))
          else if c = 't' then
            match rest with
            | 'r' :: 'u' :: 'e' :: rest2 => some (.bool true, rest2)
            | _ => none
          else if c = 'f' then
            match rest with
            | 'a' :: 'l' :: 's' :: 'e' :: rest2 => some (.bool false, rest2)
            | _ => none
          else if c = 'n' then
            match rest with
            | 'u' :: 'l' :: 'l' :: rest2 => some (.null, rest2)
            | _ => none
          else parseNumberAt (c :: rest)

/-- Parse the members of a JSON object (after the opening brace), up to and
including the closing brace. -/
def parseMembers : Nat → List Char →
    Option (List (String × Json) × List Char)
  | 0, _ => none
  | fuel + 1, cs =>
      match skipWs cs with
      | '"' :: rest =>
          match parseStringBody fuel rest with
          | none => none
          | some (key, rest1) =>
              match skipWs rest1 with
              | ':' :: rest2 =>
                  match parseValue fuel rest2 with
                  | none => none
                  | some (v, rest3) =>
                      match skipWs rest3 with
                      | ',' :: rest4 =>
                          (parseMembers fuel rest4).map
                            (fun p =>
                              ((String.mk key, v) :: p.1, p.2))
                      | '}' :: rest4 =>
                          some ([(String.mk key, v)], rest4)
                      | _ => none
              | _ => none
      | _ => none

/-- Parse the elements of a JSON array (after the opening bracket), up to
and including the closing bracket. -/
def parseElements : Nat → List Char → Option (List Json × List Char)
  | 0, _ => none
  | fuel + 1, cs =>
      match parseValue fuel cs with
      | none => none
      | some (v, rest) =>
          match skipWs rest with
          | ',' :: rest2 =>
              (parseElements fuel rest2).map (fun p => (v :: p.1, p.2))
          | ']' :: rest2 => some ([v], rest2)
          | _ => none

end

/-- Modelled from the spec: `findValidJson`, which `extractJsonFromResponse`
calls but which is absent from the repository sources — "Extract the first
syntactically valid JSON object substring from the response text".  The
scan walks left to right; at each `{` it attempts a JSON parse and returns
the first object that parses. -/
def findValidJsonAux : List Char → Option Json
  | [] => none
  | c :: rest =>
      if c = '{' then
        match parseValue ((c :: rest).length + 1) (c :: rest) with
        | some (j, _) => some j
        | none => findValidJsonAux rest
      else findValidJsonAux rest

/-- Modelled from the spec: entry point of `findValidJson` on the response
text. -/
def findValidJson (s : String) : Option Json :=
  findValidJsonAux s.data

/-- `extractJsonFromResponse`: returns the extracted object, or fails with
the extraction error (the inner "No JSON found in response" error message
is caught and re-wrapped by the surrounding catch block). -/
def extractJsonFromResponse (response : String) : Except String Json :=
  match findValidJson response with
  | some j => .ok j
  | none =>
      .error "Error extracting JSON from response: No JSON found in response"

/-- C7: `extractJsonFromResponse` fails with the extraction error exactly
when the response text contains no syntactically valid JSON object
substring, and otherwise returns the first such object verbatim — no
schema validation of its fields. -/
theorem c7_extract_json (r : String) :
    (findValidJson r = none →
      extractJsonFromResponse r =
        .error
          "Error extracting JSON from response: No JSON found in response") ∧
    (∀ j, findValidJson r = some j → extractJsonFromResponse r = .ok j) := by
  constructor
  · intro h
    simp [extractJsonFromResponse, h]
  · intro j h
    simp [extractJsonFromResponse, h]

theorem c7_extract_json_witness :
    extractJsonFromResponse "model says: \x7b\"a\":0\x7d done"
      = .ok (Json.obj [("a", Json.num "0")]) ∧
    extractJsonFromResponse "no braces here"
      = .error
          "Error extracting JSON from response: No JSON found in response" :=
  ⟨(c7_extract_json "model says: \x7b\"a\":0\x7d done").2
      (Json.obj [("a", Json.num "0")]) rfl,
    (c7_extract_json "no braces here").1 rfl⟩

/-! ### Plan-generation orchestrator (`generateUserPlans`)

The two Bedrock invocations are oracles: their outcomes (the response text
of `invokeBedrockModel`, or its thrown error) are explicit parameters, as
are the two `uuidv4()` draws and the single `new Date().toISOString()`
timestamp taken at the start of the call.  DynamoDB writes are threaded
through an explicit store state, so the state at the point of a thrown
error is exactly what remains persisted. -/

inductive PlanType where
  | EXERCISE
  | DIET
  | BOTH
deriving DecidableEq

structure PlanGenInput where
  userId : String
  planType : PlanType
  preferences : Option Json := none

/-- The record persisted by `saveExercisePlan` / `saveDietPlan`: the
DynamoDB attribute map produced by the object literal
`{ planId: uuidv4(), userId: input.userId, ...extracted,
exercises: extracted.exercises || [], createdAt: ts, updatedAt: ts }`.
The spread of the extracted JSON follows the two key members, so an
extracted object carrying `planId` / `userId` members of its own overrides
the fresh uuid and the requesting user; the `exercises` (resp. `meals`)
member and the timestamps are written after the spread and always win. -/
structure GenPlanItem where
  attrs : List (String × Json)

/-- Write one member of an object-literal attribute map: a later occurrence
of a key overrides an earlier one (the map keeps one entry per key). -/
def objSet (fields : List (String × Json)) (key : String) (v : Json) :
    List (String × Json) :=
  fields.filter (fun f => !(f.1 == key)) ++ [(key, v)]

/-- The JS object spread `{ ...base, ...j }`.  `findValidJson` only ever
produces an object, the one shape whose spread contributes members. -/
def spreadObj (base : List (String × Json)) (j : Json) :
    List (String × Json) :=
  match j with
  | .obj fs => fs.foldl (fun acc f => objSet acc f.1 f.2) base
  | _ => base

def mkExercisePlanItem (exId userId : String) (extracted : Json)
    (ts : String) : GenPlanItem :=
  ⟨objSet (objSet (objSet
      (spreadObj [("planId", .str exId), ("userId", .str userId)] extracted)
      "exercises" (jsOrDefault (extracted.getField "exercises") (.arr [])))
      "createdAt" (.str ts))
      "updatedAt" (.str ts)⟩

def mkDietPlanItem (dietId userId : String) (extracted : Json)
    (ts : String) : GenPlanItem :=
  ⟨objSet (objSet (objSet
      (spreadObj [("planId", .str dietId), ("userId", .str userId)]
        extracted)
      "meals" (jsOrDefault (extracted.getField "meals") (.arr [])))
      "createdAt" (.str ts))
      "updatedAt" (.str ts)⟩

/-- Attribute lookup in a persisted item (the map holds one entry per
key). -/
def GenPlanItem.attr (item : GenPlanItem) (key : String) : Option Json :=
  (item.attrs.find? (fun f => f.1 == key)).map (fun f => f.2)

mutual

/-- Structural equality of JSON values. -/
def Json.beq : Json → Json → Bool
  | .null, .null => true
  | .bool x, .bool y => x == y
  | .num x, .num y => x == y
  | .str x, .str y => x == y
  | .arr xs, .arr ys => jsonListBeq xs ys
  | .obj xs, .obj ys => jsonFieldsBeq xs ys
  | _, _ => false

def jsonListBeq : List Json → List Json → Bool
  | [], [] => true
  | x :: xs, y :: ys => Json.beq x y && jsonListBeq xs ys
  | _, _ => false

def jsonFieldsBeq : List (String × Json) → List (String × Json) → Bool
  | [], [] => true
  | f :: fs, g :: gs =>
      f.1 == g.1 && Json.beq f.2 g.2 && jsonFieldsBeq fs gs
  | _, _ => false

end

/-- Whether two optional attribute values coincide. -/
def optJsonBeq (a b : Option Json) : Bool :=
  match a, b with
  | none, none => true
  | some x, some y => Json.beq x y
  | _, _ => false

/-- Whether a stored row carries the same `(userId, planId)` DynamoDB key
as the item being put. -/
def genPlanKeyMatch (r item : GenPlanItem) : Bool :=
  optJsonBeq (r.attr "userId") (item.attr "userId")
    && optJsonBeq (r.attr "planId") (item.attr "planId")

/-- The tables visible to the orchestrator. -/
structure GenStores where
  profiles : ProfilesTable := []
  quiz : QuizTable := []
  exercisePlans : List GenPlanItem := []
  dietPlans : List GenPlanItem := []

/-- Unconditional `PutCommand` on a plan table (key `(userId, planId)`):
replaces any row carrying the same key as the item. -/
def putGenPlan (table : List GenPlanItem) (item : GenPlanItem) :
    List GenPlanItem :=
  table.filter (fun r => !(genPlanKeyMatch r item)) ++ [item]

def saveExercisePlanTo (st : GenStores) (item : GenPlanItem) : GenStores :=
  { st with exercisePlans := putGenPlan st.exercisePlans item }

def saveDietPlanTo (st : GenStores) (item : GenPlanItem) : GenStores :=
  { st with dietPlans := putGenPlan st.dietPlans item }

structure CollectedUserData where
  profile : UserProfile
  quizResponses : List QuizResponse

/-- `collectUserData`: profile via a limit-1 query on the partition key
(`NotFound` error when absent), quiz responses via a partition query (an
empty list is tolerated). -/
def collectUserData (userId : String) (st : GenStores) :
    Except String CollectedUserData :=
  match (st.profiles.filter (fun p => p.userId == userId)).head? with
  | none => .error ("User profile not found for userId: " ++ userId)
  | some p => .ok ⟨p, st.quiz.filter (fun r => r.userId == userId)⟩

structure GenResult where
  exercisePlan : Option GenPlanItem := none
  dietPlan : Option GenPlanItem := none

/-- The DIET / BOTH tail of `generateUserPlans`. -/
def generateDietStep (input : PlanGenInput)
    (dietResp : Except String String) (dietId ts : String)
    (st : GenStores) (exItem : Option GenPlanItem) :
    Except String GenResult × GenStores :=
  if input.planType = .DIET ∨ input.planType = .BOTH then
    match dietResp with
    | .error e => (.error e, st)
    | .ok text =>
        match extractJsonFromResponse text with
        | .error e => (.error e, st)
        | .ok extracted =>
            let item := mkDietPlanItem dietId input.userId extracted ts
            (.ok { exercisePlan := exItem, dietPlan := some item },
              saveDietPlanTo st item)
  else (.ok { exercisePlan := exItem, dietPlan := none }, st)

/-- `generateUserPlans`: collect user data, then for each requested plan
kind invoke the model, extract the JSON object, and persist the plan; any
thrown error aborts the remaining steps but performs no rollback of the
writes already made. -/
def generateUserPlans (input : PlanGenInput)
    (exResp dietResp : Except String String) (exId dietId ts : String)
    (st : GenStores) : Except String GenResult × GenStores :=
  match collectUserData input.userId st with
  | .error e => (.error e, st)
  | .ok _userData =>
      if input.planType = .EXERCISE ∨ input.planType = .BOTH then
        match exResp with
        | .error e => (.error e, st)
        | .ok text =>
            match extractJsonFromResponse text with
            | .error e => (.error e, st)
            | .ok extracted =>
                let item := mkExercisePlanItem exId input.userId extracted ts
                generateDietStep input dietResp dietId ts
                  (saveExercisePlanTo st item) (some item)
      else generateDietStep input dietResp dietId ts st none

/-- C6: with `planType = BOTH`, when the exercise-plan generation and save
succeed and the subsequent diet-plan model call or extraction fails, the
whole request fails with that error, yet the already-persisted exercise
plan remains in the resulting store, which therefore differs from the
pre-call store. -/
theorem c6_no_rollback (input : PlanGenInput) (exResp : String)
    (dietResp : Except String String) (exId dietId ts : String)
    (st : GenStores) (exJson : Json) (e : String)
    (hBoth : input.planType = .BOTH)
    (hprof : ∃ p,
      (st.profiles.filter (fun q => q.userId == input.userId)).head?
        = some p)
    (hex : extractJsonFromResponse exResp = .ok exJson)
    (hdiet : dietResp = .error e ∨
      ∃ t, dietResp = .ok t ∧ extractJsonFromResponse t = .error e)
    (hfresh : ∀ r ∈ st.exercisePlans,
      genPlanKeyMatch r (mkExercisePlanItem exId input.userId exJson ts)
        = false) :
    (generateUserPlans input (.ok exResp) dietResp exId dietId ts st).1
      = .error e ∧
    mkExercisePlanItem exId input.userId exJson ts
      ∈ (generateUserPlans input (.ok exResp) dietResp exId dietId ts
          st).2.exercisePlans ∧
    (generateUserPlans input (.ok exResp) dietResp exId dietId ts
        st).2.exercisePlans ≠ st.exercisePlans := by
  obtain ⟨p, hp⟩ := hprof
  have hcollect : collectUserData input.userId st
      = .ok ⟨p, st.quiz.filter (fun r => r.userId == input.userId)⟩ := by
    unfold collectUserData
    rw [hp]
  have hcond : (input.planType = .EXERCISE ∨ input.planType = .BOTH)
      = True := by
    simp [hBoth]
  have hdietcond : (input.planType = .DIET ∨ input.planType = .BOTH)
      = True := by
    simp [hBoth]
  have hfilter : st.exercisePlans.filter
      (fun r =>
        !(genPlanKeyMatch r (mkExercisePlanItem exId input.userId exJson ts)))
      = st.exercisePlans := by
    apply List.filter_eq_self.mpr
    intro r hr
    simp [hfresh r hr]
  have hgen : generateUserPlans input (.ok exResp) dietResp exId dietId ts st
      = (.error e,
          saveExercisePlanTo st
            (mkExercisePlanItem exId input.userId exJson ts)) := by
    unfold generateUserPlans
    rw [hcollect]
    simp only [hcond, if_true, hex]
    unfold generateDietStep
    simp only [hdietcond, if_true]
    rcases hdiet with hd | ⟨t, hd, hext⟩
    · rw [hd]
    · rw [hd]
      simp only [hext]
  rw [hgen]
  refine ⟨rfl, ?_, ?_⟩
  · show _ ∈ putGenPlan st.exercisePlans _
    unfold putGenPlan
    rw [hfilter]
    exact List.mem_append_right _ (List.mem_singleton.mpr rfl)
  · show putGenPlan st.exercisePlans _ ≠ st.exercisePlans
    unfold putGenPlan
    rw [hfilter]
    intro hcontra
    have := congrArg List.length hcontra
    simp at this

def c6Store : GenStores :=
  { profiles := [{ userId := "u1", age := some 30 }] }

theorem c6_no_rollback_witness :
    (generateUserPlans ⟨"u1", .BOTH, none⟩ (.ok "\x7b\x7d")
        (.ok "no json") "ex1" "dt1" "T" c6Store).1
      = .error
          "Error extracting JSON from response: No JSON found in response" ∧
    mkExercisePlanItem "ex1" "u1" (Json.obj []) "T"
      ∈ (generateUserPlans ⟨"u1", .BOTH, none⟩ (.ok "\x7b\x7d")
          (.ok "no json") "ex1" "dt1" "T" c6Store).2.exercisePlans ∧
    (generateUserPlans ⟨"u1", .BOTH, none⟩ (.ok "\x7b\x7d")
        (.ok "no json") "ex1" "dt1" "T" c6Store).2.exercisePlans
      ≠ c6Store.exercisePlans :=
  c6_no_rollback ⟨"u1", .BOTH, none⟩ "\x7b\x7d" (.ok "no json")
    "ex1" "dt1" "T" c6Store (Json.obj [])
    "Error extracting JSON from response: No JSON found in response"
    rfl ⟨{ userId := "u1", age := some 30 }, rfl⟩ rfl
    (Or.inr ⟨"no json", rfl, rfl⟩) (by simp [c6Store])

/-! ### Event relay (the Bedrock-response EventBridge handler)

The handler destructures `event.detail` into `connectionId` and `response`,
returns (void) at once when `response` is absent or falsy, and otherwise
persists an exercise-plan item and/or a diet-plan item, each built from the
corresponding payload when it is present and truthy.  The two `uuidv4()`
draws and the timestamp are explicit parameters; the handler returns no
value, so its observable outcome is the resulting store state. -/

structure RelayDetail where
  connectionId : String
  response : Option Json := none

structure RelayEvent where
  source : String := ""
  detailType : String := ""
  detail : RelayDetail

/-- `connectionId.split("-")[0]`: the prefix up to the first `-` (the whole
string when no `-` occurs). -/
def splitFirst (s : String) : String :=
  String.mk (s.data.takeWhile (fun c => !(c == '-')))

/-- The exercise-plan item persisted by the relay. -/
structure RelayExerciseItem where
  planId : String
  userId : Json
  title : Json
  description : Json
  exercises : Json
  createdAt : String
  updatedAt : String

/-- The diet-plan item persisted by the relay (`dailyCalories` is copied
without a default and is therefore absent when the payload omits it). -/
structure RelayDietItem where
  planId : String
  userId : Json
  title : Json
  description : Json
  dailyCalories : Option Json
  meals : Json
  dietaryRestrictions : Json
  createdAt : String
  updatedAt : String

def mkRelayExerciseItem (uuid connectionId : String) (payload : Json)
    (ts : String) : RelayExerciseItem :=
  { planId := uuid,
    userId := jsOrDefault (payload.getField "userId")
      (.str (splitFirst connectionId)),
    title := jsOrDefault (payload.getField "title")
      (.str "Custom Exercise Plan"),
    description := jsOrDefault (payload.getField "description")
      (.str "Generated with Bedrock prompt flows"),
    exercises := jsOrDefault (payload.getField "exercises") (.arr []),
    createdAt := ts, updatedAt := ts }

def mkRelayDietItem (uuid connectionId : String) (payload : Json)
    (ts : String) : RelayDietItem :=
  { planId := uuid,
    userId := jsOrDefault (payload.getField "userId")
      (.str (splitFirst connectionId)),
    title := jsOrDefault (payload.getField "title")
      (.str "Custom Diet Plan"),
    description := jsOrDefault (payload.getField "description")
      (.str "Generated with Bedrock prompt flows"),
    dailyCalories := payload.getField "dailyCalories",
    meals := jsOrDefault (payload.getField "meals") (.arr []),
    dietaryRestrictions :=
      jsOrDefault (payload.getField "dietaryRestrictions") (.arr []),
    createdAt := ts, updatedAt := ts }

/-- The relay's two plan tables.  Each persisted item carries a freshly
generated `planId`, so a `PutCommand` never collides with an existing key
and is modelled as an append. -/
structure RelayStores where
  exercisePlans : List RelayExerciseItem := []
  dietPlans : List RelayDietItem := []

/-- The relay `handler`.  It never inspects `source` or the detail-type:
EventBridge-rule filtering happens upstream of this code. -/
def relayHandler (event : RelayEvent) (exId dietId ts : String)
    (st : RelayStores) : RelayStores :=
  match event.detail.response with
  | none => st
  | some resp =>
      if jsTruthy resp then
        let st1 :=
          match resp.getField "exercisePlan" with
          | some p =>
              if jsTruthy p then
                { st with exercisePlans := st.exercisePlans
                    ++ [mkRelayExerciseItem exId event.detail.connectionId
                          p ts] }
              else st
          | none => st
        match resp.getField "dietPlan" with
        | some p =>
            if jsTruthy p then
              { st1 with dietPlans := st1.dietPlans
                  ++ [mkRelayDietItem dietId event.detail.connectionId
                        p ts] }
            else st1
        | none => st1
      else st

def c8Payload : Json :=
  Json.obj [("exercisePlan", Json.obj [("title", Json.str "EP")]),
    ("dietPlan", Json.obj [("title", Json.str "DP")])]

def c8EventDifferent : RelayEvent :=
  { source := "promptEventHandler", detailType := "differentEventType",
    detail := { connectionId := "abc-123", response := some c8Payload } }

def c8EventMatching : RelayEvent :=
  { source := "promptEventHandler", detailType := "bedrockResponded",
    detail := { connectionId := "abc-123", response := some c8Payload } }

/-- C8 counterexample: an event whose detail-type is
`"differentEventType"` but whose payload is complete is NOT ignored by the
handler — it persists both plans, exactly as the matching detail-type
does (the handler never reads the detail-type, and it returns no result
value at all). -/
theorem c8_counterexample :
    c8EventDifferent.detailType = "differentEventType" ∧
    (relayHandler c8EventDifferent "e1" "d1" "T" {}).exercisePlans.length
      = 1 ∧
    (relayHandler c8EventDifferent "e1" "d1" "T" {}).dietPlans.length = 1 ∧
    relayHandler c8EventDifferent "e1" "d1" "T" {}
      = relayHandler c8EventMatching "e1" "d1" "T" {} :=
  ⟨rfl, rfl, rfl, rfl⟩

/-- C8 (amended): the relay never inspects the detail-type — its behavior
depends only on `event.detail` — and it returns no result value; when
`detail.response` is absent nothing is persisted; when the response and
both plan payloads are present (and truthy) it persists both plan items. -/
theorem c8_relay_behavior :
    (∀ (e e' : RelayEvent) (exId dietId ts : String) (st : RelayStores),
      e.detail = e'.detail →
      relayHandler e exId dietId ts st = relayHandler e' exId dietId ts st) ∧
    (∀ (e : RelayEvent) (exId dietId ts : String) (st : RelayStores),
      e.detail.response = none → relayHandler e exId dietId ts st = st) ∧
    (∀ (e : RelayEvent) (exId dietId ts : String) (st : RelayStores)
        (resp pex pdiet : Json),
      e.detail.response = some resp → jsTruthy resp = true →
      resp.getField "exercisePlan" = some pex → jsTruthy pex = true →
      resp.getField "dietPlan" = some pdiet → jsTruthy pdiet = true →
      relayHandler e exId dietId ts st =
        { exercisePlans := st.exercisePlans
            ++ [mkRelayExerciseItem exId e.detail.connectionId pex ts],
          dietPlans := st.dietPlans
            ++ [mkRelayDietItem dietId e.detail.connectionId pdiet ts] }) := by
  refine ⟨?_, ?_, ?_⟩
  · intro e e' exId dietId ts st hdet
    unfold relayHandler
    rw [hdet]
  · intro e exId dietId ts st hresp
    unfold relayHandler
    rw [hresp]
  · intro e exId dietId ts st resp pex pdiet hresp htr hpex htx hpd htd
    unfold relayHandler
    rw [hresp]
    simp only [htr, if_true, hpex, htx, hpd, htd]

theorem c8_relay_behavior_witness :
    relayHandler
      { source := "s", detailType := "anything",
        detail := { connectionId := "abc-123", response := none } }
      "e1" "d1" "T" {} = ({} : RelayStores) :=
  c8_relay_behavior.2.1
    { source := "s", detailType := "anything",
      detail := { connectionId := "abc-123", response := none } }
    "e1" "d1" "T" {} rfl

/-- C10 counterexample: a payload whose `userId` field is present but is
the empty string: `userId || connectionId.split("-")[0]` falls back to the
connection-id prefix, so the persisted `userId` is not the payload's own
`userId` although that field is present. -/
theorem c10_counterexample :
    (Json.obj [("userId", Json.str "")]).getField "userId"
      = some (Json.str "") ∧
    (mkRelayExerciseItem "id1" "abc-123"
        (Json.obj [("userId", Json.str "")]) "T").userId
      = Json.str "abc" ∧
    Json.str "abc" ≠ Json.str "" :=
  ⟨rfl, rfl, by simp⟩

/-- C10 (amended): the persisted relay record carries the supplied fresh
identifier as `planId` and the handler timestamp; its `userId` is the
payload's own `userId` when that field is present and truthy (a non-empty
string in particular), otherwise the prefix of `connectionId` up to the
first `-`; missing `title` / `description` / list fields are replaced by
the fixed defaults rather than omitted; and the items the handler appends
are exactly these records. -/
theorem c10_relay_item_fields :
    (∀ (uuid conn ts : String) (payload : Json),
      (mkRelayExerciseItem uuid conn payload ts).planId = uuid ∧
      (mkRelayExerciseItem uuid conn payload ts).createdAt = ts ∧
      (mkRelayExerciseItem uuid conn payload ts).updatedAt = ts ∧
      (mkRelayDietItem uuid conn payload ts).planId = uuid ∧
      (mkRelayDietItem uuid conn payload ts).createdAt = ts ∧
      (mkRelayDietItem uuid conn payload ts).updatedAt = ts) ∧
    (∀ (uuid conn ts : String) (payload v : Json),
      payload.getField "userId" = some v → jsTruthy v = true →
      (mkRelayExerciseItem uuid conn payload ts).userId = v ∧
      (mkRelayDietItem uuid conn payload ts).userId = v) ∧
    (∀ (uuid conn ts : String) (payload : Json),
      (payload.getField "userId" = none ∨
        ∃ v, payload.getField "userId" = some v ∧ jsTruthy v = false) →
      (mkRelayExerciseItem uuid conn payload ts).userId
        = Json.str (splitFirst conn) ∧
      (mkRelayDietItem uuid conn payload ts).userId
        = Json.str (splitFirst conn)) ∧
    (∀ (uuid conn ts : String) (payload : Json),
      payload.getField "title" = none →
      (mkRelayExerciseItem uuid conn payload ts).title
        = Json.str "Custom Exercise Plan" ∧
      (mkRelayDietItem uuid conn payload ts).title
        = Json.str "Custom Diet Plan") ∧
    (∀ (uuid conn ts : String) (payload : Json),
      payload.getField "description" = none →
      (mkRelayExerciseItem uuid conn payload ts).description
        = Json.str "Generated with Bedrock prompt flows" ∧
      (mkRelayDietItem uuid conn payload ts).description
        = Json.str "Generated with Bedrock prompt flows") ∧
    (∀ (uuid conn ts : String) (payload : Json),
      payload.getField "exercises" = none →
      (mkRelayExerciseItem uuid conn payload ts).exercises = Json.arr []) ∧
    (∀ (uuid conn ts : String) (payload : Json),
      payload.getField "meals" = none →
      (mkRelayDietItem uuid conn payload ts).meals = Json.arr []) ∧
    (∀ (uuid conn ts : String) (payload : Json),
      payload.getField "dietaryRestrictions" = none →
      (mkRelayDietItem uuid conn payload ts).dietaryRestrictions
        = Json.arr []) ∧
    (∀ (e : RelayEvent) (exId dietId ts : String) (st : RelayStores)
        (resp pex : Json),
      e.detail.response = some resp → jsTruthy resp = true →
      resp.getField "exercisePlan" = some pex → jsTruthy pex = true →
      (relayHandler e exId dietId ts st).exercisePlans =
        st.exercisePlans
          ++ [mkRelayExerciseItem exId e.detail.connectionId pex ts]) := by
  refine ⟨?_, ?_, ?_, ?_, ?_, ?_, ?_, ?_, ?_⟩
  · intro uuid conn ts payload
    exact ⟨rfl, rfl, rfl, rfl, rfl, rfl⟩
  · intro uuid conn ts payload v hv htv
    constructor
    · simp [mkRelayExerciseItem, jsOrDefault, hv, htv]
    · simp [mkRelayDietItem, jsOrDefault, hv, htv]
  · intro uuid conn ts payload hfall
    rcases hfall with hnone | ⟨v, hv, hfv⟩
    · exact ⟨by simp [mkRelayExerciseItem, jsOrDefault, hnone],
        by simp [mkRelayDietItem, jsOrDefault, hnone]⟩
    · exact ⟨by simp [mkRelayExerciseItem, jsOrDefault, hv, hfv],
        by simp [mkRelayDietItem, jsOrDefault, hv, hfv]⟩
  · intro uuid conn ts payload hnone
    exact ⟨by simp [mkRelayExerciseItem, jsOrDefault, hnone],
      by simp [mkRelayDietItem, jsOrDefault, hnone]⟩
  · intro uuid conn ts payload hnone
    exact ⟨by simp [mkRelayExerciseItem, jsOrDefault, hnone],
      by simp [mkRelayDietItem, jsOrDefault, hnone]⟩
  · intro uuid conn ts payload hnone
    simp [mkRelayExerciseItem, jsOrDefault, hnone]
  · intro uuid conn ts payload hnone
    simp [mkRelayDietItem, jsOrDefault, hnone]
  · intro uuid conn ts payload hnone
    simp [mkRelayDietItem, jsOrDefault, hnone]
  · intro e exId dietId ts st resp pex hresp htr hpex htx
    unfold relayHandler
    rw [hresp]
    simp only [htr, if_true, hpex, htx]
    cases hpd : resp.getField "dietPlan" with
    | none => rfl
    | some p =>
        by_cases htp : jsTruthy p
        · simp [htp]
        · simp [htp]

theorem c10_relay_item_fields_witness :
    (mkRelayExerciseItem "id1" "abc-123"
        (Json.obj [("userId", Json.str "u42")]) "T").userId
      = Json.str "u42" ∧
    (mkRelayDietItem "id1" "abc-123"
        (Json.obj [("userId", Json.str "u42")]) "T").userId
      = Json.str "u42" :=
  c10_relay_item_fields.2.1 "id1" "abc-123" "T"
    (Json.obj [("userId", Json.str "u42")]) (Json.str "u42") rfl rfl

/-! ### Flow-invocation handler (`functionHandler` stream drain)

The handler iterates over `response.responseStream`, overwriting `result`
with `JSON.stringify(chunk.flowOutputEvent.content.document)` whenever that
chained access is populated (truthy), and finally forwards
`result ? JSON.parse(result) : {}`.  The `stringify`/`parse` round trip of
a document is abstracted as the identity, so the running result is the
last populated document itself. -/

structure FlowContent where
  document : Option Json := none

structure FlowOutputEvent where
  content : Option FlowContent := none

structure FlowChunk where
  flowOutputEvent : Option FlowOutputEvent := none

/-- The chained access `chunk.flowOutputEvent?.content?.document` guarded
by the truthiness test of the `if`. -/
def chunkDocument (c : FlowChunk) : Option Json :=
  match c.flowOutputEvent with
  | none => none
  | some ev =>
      match ev.content with
      | none => none
      | some content =>
          match content.document with
          | none => none
          | some d => if jsTruthy d then some d else none

/-- The `for await` loop over the response stream: each populated chunk
overwrites the running result. -/
def drainStream (chunks : List FlowChunk) : Option Json :=
  chunks.foldl
    (fun res c =>
      match chunkDocument c with
      | some d => some d
      | none => res)
    none

/-- `result ? JSON.parse(result) : {}`: the document published onward, an
empty object when no chunk was populated. -/
def forwardedResponse (chunks : List FlowChunk) : Json :=
  match drainStream chunks with
  | some d => d
  | none => Json.obj []

lemma getLast?_cons_or {α : Type} (a : α) (l : List α) :
    (a :: l).getLast? =
      match l.getLast? with
      | some x => some x
      | none => some a := by
  cases l with
  | nil => rfl
  | cons b t =>
      rw [List.getLast?_cons_cons]
      cases h : (b :: t).getLast? with
      | none =>
          exfalso
          rw [List.getLast?_eq_none_iff] at h
          cases h
      | some x => rfl

lemma foldl_lastWins (chunks : List FlowChunk) :
    ∀ acc : Option Json,
      chunks.foldl
        (fun res c =>
          match chunkDocument c with
          | some d => some d
          | none => res) acc =
      match (chunks.filterMap chunkDocument).getLast? with
      | some d => some d
      | none => acc := by
  induction chunks with
  | nil => intro acc; rfl
  | cons c rest ih =>
      intro acc
      rw [List.foldl_cons, List.filterMap_cons]
      cases hc : chunkDocument c with
      | none =>
          rw [ih acc]
      | some d =>
          rw [ih (some d), getLast?_cons_or]
          cases (rest.filterMap chunkDocument).getLast? with
          | none => rfl
          | some x => rfl

/-- C9: the drained result is the document of the last stream chunk with a
populated `flowOutputEvent` content document — last-value-wins, not an
accumulation; a chunk without such content leaves the running result
unchanged, and an empty stream makes the handler forward an empty
object. -/
theorem c9_drain_last_value (chunks : List FlowChunk) :
    (drainStream chunks = (chunks.filterMap chunkDocument).getLast?) ∧
    (∀ c, chunkDocument c = none →
      drainStream (chunks ++ [c]) = drainStream chunks) ∧
    (∀ c d, chunkDocument c = some d →
      drainStream (chunks ++ [c]) = some d) ∧
    (drainStream ([] : List FlowChunk) = none) ∧
    (forwardedResponse ([] : List FlowChunk) = Json.obj []) := by
  refine ⟨?_, ?_, ?_, rfl, rfl⟩
  · unfold drainStream
    rw [foldl_lastWins]
    cases (chunks.filterMap chunkDocument).getLast? with
    | none => rfl
    | some d => rfl
  · intro c hc
    unfold drainStream
    rw [List.foldl_append, List.foldl_cons, List.foldl_nil, hc]
  · intro c d hc
    unfold drainStream
    rw [List.foldl_append, List.foldl_cons, List.foldl_nil, hc]

def c9DocA : Json := Json.obj [("part", Json.str "first")]

def c9DocB : Json := Json.obj [("part", Json.str "second")]

def c9Chunks : List FlowChunk :=
  [{ flowOutputEvent := some { content := some { document := some c9DocA } } },
    {},
    { flowOutputEvent := some { content := some { document := some c9DocB } } }]

theorem c9_drain_last_value_witness :
    drainStream (c9Chunks ++ [{ flowOutputEvent := none }])
      = drainStream c9Chunks ∧
    drainStream c9Chunks = (c9Chunks.filterMap chunkDocument).getLast? :=
  ⟨(c9_drain_last_value c9Chunks).2.1 { flowOutputEvent := none } rfl,
    (c9_drain_last_value c9Chunks).1⟩

end Dreambody
